import Mathlib

/-!
Shallow embedding of fs/ext4/extend.c from the alikernel tree: the ext4
extension policy layer providing timestamp-update coalescing
(ext4_ext_update_time), adaptive writeback throttling
(ext4_ext_limit_writeback), mount-option parsing
(ext4_handle_ext_mount_opt) and the sysfs attribute registry
(ext4_ext_attr_show / ext4_ext_attr_store) over the per-superblock
extension state.

Machine integers are modelled as Nat/Int with explicit reduction modulo
two to the 64 where the C code converts between `long` and
`unsigned long`.  The kernel is compiled with -fno-strict-overflow, so
signed arithmetic wraps in two's complement; `wrapS64` applies that wrap.
-/

/-- Reduce an integer into the signed 64-bit range, two's-complement
wrapping as the kernel's `long` arithmetic does under
-fno-strict-overflow. -/
def wrapS64 (i : Int) : Int :=
  (i + 2 ^ 63) % 2 ^ 64 - 2 ^ 63

/-- Convert a signed value to the `unsigned long` (64-bit) it becomes on
assignment, per C conversion rules: the value modulo two to the 64. -/
def toU64 (i : Int) : Nat :=
  (i % (2 ^ 64 : Int)).toNat

/-- Convert an `unsigned long` bit pattern to the `long` it is read back
as (two's complement). -/
def toS64 (n : Nat) : Int :=
  if n % 2 ^ 64 < 2 ^ 63 then ((n % 2 ^ 64 : Nat) : Int)
  else ((n % 2 ^ 64 : Nat) : Int) - 2 ^ 64

theorem wrapS64_eq_self {i : Int} (h1 : -(2 ^ 63) ≤ i) (h2 : i < 2 ^ 63) :
    wrapS64 i = i := by
  unfold wrapS64
  rw [Int.emod_eq_of_lt (by omega) (by omega)]
  omega

theorem toU64_of_nonneg {i : Int} (h1 : 0 ≤ i) (h2 : i < 2 ^ 64) :
    (toU64 i : Int) = i := by
  unfold toU64
  rw [Int.emod_eq_of_lt h1 h2, Int.toNat_of_nonneg h1]

theorem toU64_of_neg {i : Int} (h1 : -(2 ^ 63) ≤ i) (h2 : i < 0) :
    (toU64 i : Int) = i + 2 ^ 64 := by
  unfold toU64
  have he : i % (2 ^ 64 : Int) = i + 2 ^ 64 := by
    have : (i + 2 ^ 64) % (2 ^ 64 : Int) = i + 2 ^ 64 :=
      Int.emod_eq_of_lt (by omega) (by omega)
    omega
  rw [he, Int.toNat_of_nonneg (by omega)]

theorem toS64_of_lt {n : Nat} (h : n < 2 ^ 63) : toS64 n = n := by
  have h64 : n < 2 ^ 64 := by omega
  unfold toS64
  rw [Nat.mod_eq_of_lt h64, if_pos h]

/-- Update-kind flag bits, as in include/linux/fs.h of the host kernel
tree (that header is not under src/); only their pairwise-distinct bit
positions matter to the code modelled here. -/
def S_ATIME : Nat := 1

/-- Modify-time update-kind flag bit. -/
def S_MTIME : Nat := 2

/-- Change-time update-kind flag bit. -/
def S_CTIME : Nat := 4

/-- Version-bump update-kind flag bit. -/
def S_VERSION : Nat := 8

/-- Modelled from the spec: the extension option flag bits
EXT4_EXT_OPT_VALID / EXT4_EXT_OPT_DELAY_UPDATE_TIME /
EXT4_EXT_OPT_WB_NICE are declared in ext4.h, which is not under src/;
the code only needs them to be distinct single bits OR-ed into
`s_opt`. -/
def EXT4_EXT_OPT_VALID : Nat := 1

/-- Option flag bit: timestamp coalescing requested at mount time. -/
def EXT4_EXT_OPT_DELAY_UPDATE_TIME : Nat := 2

/-- Option flag bit: writeback nice throttling requested at mount time. -/
def EXT4_EXT_OPT_WB_NICE : Nat := 4

/-- Modelled from the spec: the built-in default coalescing delay
EXT4_EXT_DEFAULT_DELAY_UPDATE_TIME is declared in ext4.h, which is not
under src/; the spec only says a built-in default exists, so a fixed
representative value is used (no theorem depends on the number). -/
def EXT4_EXT_DEFAULT_DELAY_UPDATE_TIME : Nat := 5000

/-- The per-superblock extension state `struct ext4_ext_sb_info` (the
mutex and kobject, which carry no policy data, are omitted).
`s_delay_update_time` is a u32 per the spec data model, kept below two
to the 32 by every writer; `s_wb_enable` is only tested against zero. -/
structure Ext4ExtSbInfo where
  s_opt : Nat
  s_delay_update_time : Nat
  s_wb_enable : Nat
deriving DecidableEq, Repr

/-- A `struct timespec`: both fields are `long` on the 64-bit targets
this code is built for. -/
structure Timespec where
  tv_sec : Int
  tv_nsec : Int
deriving DecidableEq, Repr

/-- MSEC_PER_SEC from linux/time.h (1000L). -/
def MSEC_PER_SEC : Int := 1000

/-- NSEC_PER_MSEC from linux/time.h (1000000L). -/
def NSEC_PER_MSEC : Int := 1000000

/-- The elapsed-time formula as the spec states it, over unbounded
integers: `(requested.seconds - current.seconds) * 1000 +
(requested.nanos - current.nanos) / 1_000_000`, division truncating
toward zero.  Used to compare the code's computation against the
spec's words. -/
def elapsedMs (old new : Timespec) : Int :=
  (new.tv_sec - old.tv_sec) * 1000 +
    Int.tdiv (new.tv_nsec - old.tv_nsec) 1000000

/-- ext4_ext_should_update_time (extend.c lines 233-242).  The signed
`long` computation wraps (kernel -fno-strict-overflow) and is then
assigned to the `unsigned long` variable `elapse`; the comparison
`elapse >= delay` is unsigned, with the u32 `delay` zero-extended. -/
def ext4_ext_should_update_time (old new : Timespec) (delay : Nat) : Bool :=
  let elapse : Nat :=
    toU64 (wrapS64 (wrapS64 (wrapS64 (new.tv_sec - old.tv_sec) * MSEC_PER_SEC) +
      Int.tdiv (wrapS64 (new.tv_nsec - old.tv_nsec)) NSEC_PER_MSEC))
  decide (delay ≤ elapse)

/-- ext4_ext_update_time (extend.c lines 244-275), reduced to its
decision: `true` means the update is applied (the code takes the
`update:` path and calls generic_update_time), `false` means it is
suppressed (the code returns 0 without applying).  `delay` is read once
from `s_delay_update_time` and used for both timestamp checks. -/
def ext4_ext_update_time (sebi : Ext4ExtSbInfo)
    (i_ctime i_mtime tm : Timespec) (flags : Nat) : Bool :=
  let delay := sebi.s_delay_update_time
  if sebi.s_opt &&& EXT4_EXT_OPT_DELAY_UPDATE_TIME = 0 then true
  else if delay = 0 then true
  else if flags &&& S_VERSION ≠ 0 then true
  else if flags &&& S_ATIME ≠ 0 then true
  else if flags &&& S_CTIME ≠ 0 ∧ ext4_ext_should_update_time i_ctime tm delay then true
  else if flags &&& S_MTIME ≠ 0 ∧ ext4_ext_should_update_time i_mtime tm delay then true
  else false

theorem tdiv_million_bound {d : Int} (h1 : -(2 ^ 62) ≤ d) (h2 : d ≤ 2 ^ 62) :
    -(2 ^ 62) ≤ d.tdiv 1000000 ∧ d.tdiv 1000000 ≤ 2 ^ 62 := by
  have habs : (d.tdiv 1000000).natAbs ≤ d.natAbs := by
    rw [Int.natAbs_tdiv]
    exact Nat.div_le_self _ _
  omega

/-- On timestamps whose differences stay within realistic 64-bit
bounds, the code's unsigned comparison `elapse >= delay` holds exactly
when the mathematical truncated elapsed value is negative (the store
into `unsigned long` wraps it above two to the 63) or at least the
u32 delay. -/
theorem ext4_ext_should_update_time_eq (old new : Timespec) (delay : Nat)
    (hs1 : -(2 ^ 52) ≤ new.tv_sec - old.tv_sec)
    (hs2 : new.tv_sec - old.tv_sec ≤ 2 ^ 52)
    (hn1 : -(2 ^ 62) ≤ new.tv_nsec - old.tv_nsec)
    (hn2 : new.tv_nsec - old.tv_nsec ≤ 2 ^ 62)
    (hdel : delay < 2 ^ 32) :
    ext4_ext_should_update_time old new delay =
      decide (elapsedMs old new < 0 ∨ (delay : Int) ≤ elapsedMs old new) := by
  unfold ext4_ext_should_update_time elapsedMs MSEC_PER_SEC NSEC_PER_MSEC
  have hq := tdiv_million_bound hn1 hn2
  have w1 : wrapS64 (new.tv_sec - old.tv_sec) = new.tv_sec - old.tv_sec :=
    wrapS64_eq_self (by omega) (by omega)
  have w2 : wrapS64 (new.tv_nsec - old.tv_nsec) = new.tv_nsec - old.tv_nsec :=
    wrapS64_eq_self (by omega) (by omega)
  rw [w1, w2]
  have w3 : wrapS64 ((new.tv_sec - old.tv_sec) * 1000) =
      (new.tv_sec - old.tv_sec) * 1000 :=
    wrapS64_eq_self (by omega) (by omega)
  rw [w3]
  set e : Int := (new.tv_sec - old.tv_sec) * 1000 +
    (new.tv_nsec - old.tv_nsec).tdiv 1000000 with he
  have hbound1 : -(2 ^ 63) ≤ e := by omega
  have hbound2 : e < 2 ^ 63 := by omega
  rw [wrapS64_eq_self hbound1 hbound2]
  rw [decide_eq_decide]
  rcases le_or_lt 0 e with hpos | hneg
  · have hu := toU64_of_nonneg hpos (by omega)
    omega
  · have hu := toU64_of_neg hbound1 hneg
    omega

/-- With coalescing enabled and a nonzero delay, an update whose kind
flags include ctime but not version, atime or mtime is decided exactly
by the ctime elapsed-time check. -/
theorem ext4_ext_update_time_ctime_only (sebi : Ext4ExtSbInfo)
    (ic im tm : Timespec) (flags : Nat)
    (hopt : sebi.s_opt &&& EXT4_EXT_OPT_DELAY_UPDATE_TIME ≠ 0)
    (hd : sebi.s_delay_update_time ≠ 0)
    (hv : flags &&& S_VERSION = 0) (ha : flags &&& S_ATIME = 0)
    (hc : flags &&& S_CTIME ≠ 0) (hm : flags &&& S_MTIME = 0) :
    ext4_ext_update_time sebi ic im tm flags =
      ext4_ext_should_update_time ic tm sebi.s_delay_update_time := by
  unfold ext4_ext_update_time
  rw [if_neg hopt, if_neg hd, if_neg (by simp [hv]), if_neg (by simp [ha])]
  by_cases h : ext4_ext_should_update_time ic tm sebi.s_delay_update_time = true
  · rw [if_pos ⟨hc, h⟩, h]
  · rw [if_neg (by tauto), if_neg (by simp [hm])]
    simp at h
    exact h.symm

/-- With coalescing enabled and a nonzero delay, an update whose kind
flags include mtime but not version, atime or ctime is decided exactly
by the mtime elapsed-time check. -/
theorem ext4_ext_update_time_mtime_only (sebi : Ext4ExtSbInfo)
    (ic im tm : Timespec) (flags : Nat)
    (hopt : sebi.s_opt &&& EXT4_EXT_OPT_DELAY_UPDATE_TIME ≠ 0)
    (hd : sebi.s_delay_update_time ≠ 0)
    (hv : flags &&& S_VERSION = 0) (ha : flags &&& S_ATIME = 0)
    (hc : flags &&& S_CTIME = 0) (hm : flags &&& S_MTIME ≠ 0) :
    ext4_ext_update_time sebi ic im tm flags =
      ext4_ext_should_update_time im tm sebi.s_delay_update_time := by
  unfold ext4_ext_update_time
  rw [if_neg hopt, if_neg hd, if_neg (by simp [hv]), if_neg (by simp [ha]),
    if_neg (by simp [hc])]
  by_cases h : ext4_ext_should_update_time im tm sebi.s_delay_update_time = true
  · rw [if_pos ⟨hm, h⟩, h]
  · rw [if_neg (by tauto)]
    simp at h
    exact h.symm

/-- C1 counterexample.  Coalescing is enabled (s_opt has the
delay-update bit), delayUpdateTimeMs = 500 > 0, the update is
ctime-only, and the requested timestamp (0s, 0ns) is strictly earlier
than the stored ctime (1s, 0ns).  The computed elapsed value is -1000,
but the store into the `unsigned long` variable `elapse` wraps it to
2^64 - 1000, which satisfies `elapse >= delay`, so the update is
APPLIED (true), contradicting the claim that it is suppressed. -/
theorem claim_C1_cex :
    ext4_ext_update_time ⟨3, 500, 0⟩ ⟨1, 0⟩ ⟨1, 0⟩ ⟨0, 0⟩ S_CTIME = true := by
  decide

/-- C1 (amended): with coalescing enabled and 0 < delayUpdateTimeMs
< 2^32, for a ctime-only or mtime-only update whose computed elapsed
value (relative to the relevant stored timestamp, within realistic
64-bit bounds) is strictly negative, the unsigned wraparound makes
`elapse >= delay` hold and the update is applied, not suppressed; the
update is suppressed only when the truncated elapsed value is exactly
zero. -/
theorem claim_C1_amended (sebi : Ext4ExtSbInfo) (old other tm : Timespec)
    (hopt : sebi.s_opt &&& EXT4_EXT_OPT_DELAY_UPDATE_TIME ≠ 0)
    (hd0 : 0 < sebi.s_delay_update_time)
    (hd32 : sebi.s_delay_update_time < 2 ^ 32)
    (hs1 : -(2 ^ 52) ≤ tm.tv_sec - old.tv_sec)
    (hs2 : tm.tv_sec - old.tv_sec ≤ 2 ^ 52)
    (hn1 : -(2 ^ 62) ≤ tm.tv_nsec - old.tv_nsec)
    (hn2 : tm.tv_nsec - old.tv_nsec ≤ 2 ^ 62) :
    (elapsedMs old tm < 0 →
      ext4_ext_update_time sebi old other tm S_CTIME = true ∧
      ext4_ext_update_time sebi other old tm S_MTIME = true) ∧
    (elapsedMs old tm = 0 →
      ext4_ext_update_time sebi old other tm S_CTIME = false ∧
      ext4_ext_update_time sebi other old tm S_MTIME = false) := by
  have hct : ext4_ext_update_time sebi old other tm S_CTIME =
      ext4_ext_should_update_time old tm sebi.s_delay_update_time :=
    ext4_ext_update_time_ctime_only sebi old other tm S_CTIME hopt
      (by omega) (by decide) (by decide) (by decide) (by decide)
  have hmt : ext4_ext_update_time sebi other old tm S_MTIME =
      ext4_ext_should_update_time old tm sebi.s_delay_update_time :=
    ext4_ext_update_time_mtime_only sebi other old tm S_MTIME hopt
      (by omega) (by decide) (by decide) (by decide) (by decide)
  have heq := ext4_ext_should_update_time_eq old tm sebi.s_delay_update_time
    hs1 hs2 hn1 hn2 hd32
  constructor
  · intro hneg
    rw [hct, hmt, heq]
    simp [hneg]
  · intro hzero
    rw [hct, hmt, heq, hzero]
    have : ¬ ((0 : Int) < 0 ∨ (sebi.s_delay_update_time : Int) ≤ 0) := by omega
    exact ⟨decide_eq_false this, decide_eq_false this⟩

/-- C1 witness: the amended theorem applied at a concrete input where
the elapsed value is -1000 (so the first implication fires). -/
theorem claim_C1_witness :
    (elapsedMs ⟨1, 0⟩ ⟨0, 0⟩ < 0 →
      ext4_ext_update_time ⟨3, 700, 0⟩ ⟨1, 0⟩ ⟨9, 9⟩ ⟨0, 0⟩ S_CTIME = true ∧
      ext4_ext_update_time ⟨3, 700, 0⟩ ⟨9, 9⟩ ⟨1, 0⟩ ⟨0, 0⟩ S_MTIME = true) ∧
    (elapsedMs ⟨1, 0⟩ ⟨0, 0⟩ = 0 →
      ext4_ext_update_time ⟨3, 700, 0⟩ ⟨1, 0⟩ ⟨9, 9⟩ ⟨0, 0⟩ S_CTIME = false ∧
      ext4_ext_update_time ⟨3, 700, 0⟩ ⟨9, 9⟩ ⟨1, 0⟩ ⟨0, 0⟩ S_MTIME = false) :=
  claim_C1_amended ⟨3, 700, 0⟩ ⟨1, 0⟩ ⟨9, 9⟩ ⟨0, 0⟩ (by decide) (by decide)
    (by decide) (by decide) (by decide) (by decide) (by decide)

/-- C2 counterexample.  Coalescing enabled, delay 500 > 0, flags =
ctime and mtime.  The stored ctime equals the requested timestamp
(ctime elapsed 0 < 500), so by the claim the result should be false;
but the failed ctime check falls through to the mtime check, the
stored mtime is 1000 seconds older, and the update is applied. -/
theorem claim_C2_cex :
    ext4_ext_update_time ⟨3, 500, 0⟩ ⟨1000, 0⟩ ⟨0, 0⟩ ⟨1000, 0⟩
      (S_CTIME ||| S_MTIME) = true := by
  decide

/-- C2 (amended): for every update whose kind flags include ctime but
not version-bump, not access-time and NOT modify-time, with coalescing
enabled, 0 < delayUpdateTimeMs < 2^32, timestamps within realistic
64-bit bounds, and a requested timestamp not earlier than the stored
ctime (non-negative computed elapsed value), the update is applied iff
the elapsed milliseconds between the stored ctime and the requested
timestamp is at least delayUpdateTimeMs.  (When the kind flags also
include mtime, a failed ctime check falls through to the mtime check
instead of deciding the outcome.) -/
theorem claim_C2_amended (sebi : Ext4ExtSbInfo)
    (i_ctime i_mtime tm : Timespec) (flags : Nat)
    (hopt : sebi.s_opt &&& EXT4_EXT_OPT_DELAY_UPDATE_TIME ≠ 0)
    (hd0 : 0 < sebi.s_delay_update_time)
    (hd32 : sebi.s_delay_update_time < 2 ^ 32)
    (hv : flags &&& S_VERSION = 0) (ha : flags &&& S_ATIME = 0)
    (hc : flags &&& S_CTIME ≠ 0) (hm : flags &&& S_MTIME = 0)
    (hs1 : -(2 ^ 52) ≤ tm.tv_sec - i_ctime.tv_sec)
    (hs2 : tm.tv_sec - i_ctime.tv_sec ≤ 2 ^ 52)
    (hn1 : -(2 ^ 62) ≤ tm.tv_nsec - i_ctime.tv_nsec)
    (hn2 : tm.tv_nsec - i_ctime.tv_nsec ≤ 2 ^ 62)
    (hnn : 0 ≤ elapsedMs i_ctime tm) :
    ext4_ext_update_time sebi i_ctime i_mtime tm flags = true ↔
      (sebi.s_delay_update_time : Int) ≤ elapsedMs i_ctime tm := by
  rw [ext4_ext_update_time_ctime_only sebi i_ctime i_mtime tm flags hopt
    (by omega) hv ha hc hm]
  rw [ext4_ext_should_update_time_eq i_ctime tm sebi.s_delay_update_time
    hs1 hs2 hn1 hn2 hd32]
  rw [decide_eq_true_eq]
  omega

/-- C2 witness: the amended theorem applied at stored ctime (0s, 0ns),
requested (2s, 0ns), delay 1500: elapsed 2000 >= 1500, update applied. -/
theorem claim_C2_witness :
    ext4_ext_update_time ⟨3, 1500, 0⟩ ⟨0, 0⟩ ⟨5, 5⟩ ⟨2, 0⟩ S_CTIME = true ↔
      ((1500 : Nat) : Int) ≤ elapsedMs ⟨0, 0⟩ ⟨2, 0⟩ :=
  claim_C2_amended ⟨3, 1500, 0⟩ ⟨0, 0⟩ ⟨5, 5⟩ ⟨2, 0⟩ S_CTIME (by decide)
    (by decide) (by decide) (by decide) (by decide) (by decide) (by decide)
    (by decide) (by decide) (by decide) (by decide) (by decide)

/-- C3 (confirmed): the update is always applied when the coalescing
flag is not set, or the delay is zero, or the kind flags include a
version bump, or the kind flags include access-time, regardless of the
stored and requested timestamps. -/
theorem claim_C3 (sebi : Ext4ExtSbInfo) (i_ctime i_mtime tm : Timespec)
    (flags : Nat)
    (h : sebi.s_opt &&& EXT4_EXT_OPT_DELAY_UPDATE_TIME = 0 ∨
      sebi.s_delay_update_time = 0 ∨
      flags &&& S_VERSION ≠ 0 ∨ flags &&& S_ATIME ≠ 0) :
    ext4_ext_update_time sebi i_ctime i_mtime tm flags = true := by
  unfold ext4_ext_update_time
  rcases h with h | h | h | h
  · simp [h]
  · by_cases h1 : sebi.s_opt &&& EXT4_EXT_OPT_DELAY_UPDATE_TIME = 0 <;>
      simp [h1, h]
  · by_cases h1 : sebi.s_opt &&& EXT4_EXT_OPT_DELAY_UPDATE_TIME = 0
    · simp [h1]
    · by_cases h2 : sebi.s_delay_update_time = 0 <;> simp [h1, h2, h]
  · by_cases h1 : sebi.s_opt &&& EXT4_EXT_OPT_DELAY_UPDATE_TIME = 0
    · simp [h1]
    · by_cases h2 : sebi.s_delay_update_time = 0
      · simp [h1, h2]
      · by_cases h3 : flags &&& S_VERSION ≠ 0 <;> simp [h1, h2, h3, h]

/-- C3 witness: a version-bump update with coalescing enabled and a
nonzero delay is applied even though no time has elapsed. -/
theorem claim_C3_witness :
    ext4_ext_update_time ⟨3, 500, 0⟩ ⟨1, 0⟩ ⟨1, 0⟩ ⟨1, 0⟩ S_VERSION = true :=
  claim_C3 ⟨3, 500, 0⟩ ⟨1, 0⟩ ⟨1, 0⟩ ⟨1, 0⟩ S_VERSION
    (Or.inr (Or.inr (Or.inl (by decide))))

/-- Hexadecimal digit test, as isxdigit in the kernel ctype. -/
def isHexDigitChar (c : Char) : Bool :=
  c.isDigit || ('a' ≤ c && c ≤ 'f') || ('A' ≤ c && c ≤ 'F')

/-- Value of one digit character under the given base, per the digit
scan in _parse_integer (lib/kstrtox.c): decimal digits, then letters
case-insensitively, rejected when the value reaches the base. -/
def digitVal (base : Nat) (c : Char) : Option Nat :=
  let v : Option Nat :=
    if c.isDigit then some (c.toNat - 48)
    else if 'a' ≤ c && c ≤ 'f' then some (c.toNat - 87)
    else if 'A' ≤ c && c ≤ 'F' then some (c.toNat - 55)
    else none
  match v with
  | some d => if d < base then some d else none
  | none => none

/-- Accumulator loop of _parse_integer: `res = res * base + val` wraps
in u64; the kernel records an overflow flag but keeps accumulating. -/
def parseIntegerAux (base : Nat) : List Char → Nat → Nat → Bool → Nat × Nat × Bool
  | [], res, cnt, ovf => (res, cnt, ovf)
  | c :: rest, res, cnt, ovf =>
    match digitVal base c with
    | none => (res, cnt, ovf)
    | some d =>
      parseIntegerAux base rest ((res * base + d) % 2 ^ 64) (cnt + 1)
        (ovf || decide (2 ^ 64 ≤ res * base + d))

/-- _parse_integer (lib/kstrtox.c, not under src/): returns the
accumulated value (mod 2^64), the number of characters consumed, and
the overflow flag. -/
def parseInteger (cs : List Char) (base : Nat) : Nat × Nat × Bool :=
  parseIntegerAux base cs 0 0 false

/-- _parse_integer_fixup_radix (lib/kstrtox.c, not under src/): with
caller base 0, a leading `0x` followed by a hex digit selects base 16,
any other leading `0` selects base 8, otherwise base 10; a `0x` prefix
is skipped when parsing base 16. -/
def fixupRadix (cs : List Char) (base : Nat) : Nat × List Char :=
  let b :=
    if base = 0 then
      match cs with
      | '0' :: rest =>
        match rest with
        | c2 :: c3 :: _ => if (c2 = 'x' || c2 = 'X') && isHexDigitChar c3 then 16 else 8
        | _ => 8
      | _ => 10
    else base
  let cs2 :=
    if b = 16 then
      match cs with
      | '0' :: c2 :: rest => if c2 = 'x' || c2 = 'X' then rest else cs
      | _ => cs
    else cs
  (b, cs2)

/-- simple_strtoull (lib/vsprintf.c, not under src/): greedy parse from
the start of the string, overflow ignored (value wraps in u64); returns
the value and the total number of characters consumed (the endp
offset). -/
def simple_strtoull (cs : List Char) (base : Nat) : Nat × Nat :=
  let p := fixupRadix cs base
  let r := parseInteger p.2 p.1
  (r.1, (cs.length - p.2.length) + r.2.1)

/-- simple_strtoul: identical to simple_strtoull on a 64-bit long. -/
def simple_strtoul (cs : List Char) (base : Nat) : Nat × Nat :=
  simple_strtoull cs base

/-- Number of characters simple_strtol (base 0) consumes from the front
of the string: on a leading minus sign it consumes it and defers to
simple_strtoull for the rest.  This is what positions `endp` for the
%d conversion of match_one (lib/parser.c, not under src/). -/
def simple_strtol_consumed (cs : List Char) : Nat :=
  match cs with
  | '-' :: rest => 1 + (simple_strtoull rest 0).2
  | _ => (simple_strtoull cs 0).2

/-- kstrtoull (lib/kstrtox.c, not under src/): strict unsigned 64-bit
parse.  A single leading plus sign is skipped; overflow gives -ERANGE
(-34); no digits, or any character other than one trailing newline left
after the digits, gives -EINVAL (-22). -/
def kstrtoull (cs : List Char) (base : Nat) : Except Int Nat :=
  let cs1 := match cs with | '+' :: r => r | _ => cs
  let p := fixupRadix cs1 base
  let r := parseInteger p.2 p.1
  if r.2.2 then Except.error (-34)
  else if r.2.1 = 0 then Except.error (-22)
  else
    let rest := p.2.drop r.2.1
    let rest2 := match rest with | '\n' :: rs => rs | _ => rest
    if rest2 = [] then Except.ok r.1 else Except.error (-22)

/-- isspace of the kernel ctype (space, tab, newline, vertical tab,
form feed, carriage return). -/
def isSpaceChar (c : Char) : Bool :=
  c = ' ' || c = '\t' || c = '\n' || c = '\x0b' || c = '\x0c' || c = '\r'

/-- skip_spaces (lib/string_helpers.c, not under src/). -/
def skip_spaces (cs : List Char) : List Char :=
  cs.dropWhile isSpaceChar

/-- match_u64 (lib/parser.c, not under src/): duplicates the matched
substring and parses it with kstrtoull base 0. -/
def match_u64 (cs : List Char) : Except Int Nat :=
  kstrtoull cs 0

/-- Bit length of n, computed with explicit 64 steps of fuel so the
recursion is structural; this is fls_long on the 64-bit `unsigned long`
values the code applies it to. -/
def bitLenAux : Nat → Nat → Nat
  | 0, _ => 0
  | fuel + 1, n => if n = 0 then 0 else bitLenAux fuel (n / 2) + 1

/-- fls_long (include/linux/bitops.h, not under src/): index of the
most significant set bit, counting from 1; 0 for input 0. -/
def fls_long (n : Nat) : Nat :=
  bitLenAux 64 n

/-- roundup_pow_of_two (include/linux/log2.h, not under src/):
`1UL << fls_long(n - 1)`, the smallest power of two that is at least n
(for the 1..255 range the throttle path feeds it). -/
def roundup_pow_of_two (n : Nat) : Nat :=
  2 ^ fls_long (n - 1)

theorem bitLenAux_mono : ∀ (fuel m n : Nat), m ≤ n →
    bitLenAux fuel m ≤ bitLenAux fuel n
  | 0, _, _, _ => Nat.le_refl _
  | fuel + 1, m, n, h => by
    unfold bitLenAux
    by_cases hm : m = 0
    · subst hm
      simp
    · have hn : n ≠ 0 := by omega
      rw [if_neg hm, if_neg hn]
      have := bitLenAux_mono fuel (m / 2) (n / 2) (Nat.div_le_div_right h)
      omega

theorem roundup_pow_of_two_pos (n : Nat) : 0 < roundup_pow_of_two n :=
  Nat.pos_pow_of_pos _ (by omega)

theorem roundup_pow_of_two_mono {m n : Nat} (h : m ≤ n) :
    roundup_pow_of_two m ≤ roundup_pow_of_two n :=
  Nat.pow_le_pow_right (by omega) (bitLenAux_mono 64 _ _ (by omega))

/-- round_down(x, y) (include/linux/kernel.h, not under src/) for the
`unsigned long` operands the throttle path produces: `x & ~(y - 1)`;
on 64 bits the mask ~(y - 1) is 2^64 - y. -/
def round_down (x y : Nat) : Nat :=
  x &&& (2 ^ 64 - y)

theorem land_high_mask {n : Nat} (h : n < 2 ^ 64) :
    n &&& (2 ^ 64 - 2 ^ 10) = n / 2 ^ 10 * 2 ^ 10 := by
  have hmask : (2 ^ 64 - 2 ^ 10 : Nat) = (2 ^ 54 - 1) <<< 10 := by
    rw [Nat.shiftLeft_eq]
    norm_num
  have hdiv : n / 2 ^ 10 * 2 ^ 10 = (n >>> 10) <<< 10 := by
    rw [Nat.shiftLeft_eq, Nat.shiftRight_eq_div_pow]
  rw [hmask, hdiv]
  apply Nat.eq_of_testBit_eq
  intro i
  rw [Nat.testBit_land, Nat.testBit_shiftLeft, Nat.testBit_shiftLeft,
    Nat.testBit_shiftRight, Nat.testBit_two_pow_sub_one]
  by_cases h10 : 10 ≤ i
  · have e1 : 10 + (i - 10) = i := by omega
    by_cases h64 : i < 64
    · have e2 : i - 10 < 54 := by omega
      simp [e1, e2, h10]
    · have hbit : n.testBit i = false :=
        Nat.testBit_lt_two_pow
          (Nat.lt_of_lt_of_le h (Nat.pow_le_pow_right (by omega) (by omega)))
      simp [e1, hbit]
  · have e0 : ¬ (i ≥ 10) := by omega
    simp [e0]

/-- LONG_MAX on the 64-bit targets this code is built for. -/
def LONG_MAX : Int := 2 ^ 63 - 1

/-- PAGE_SIZE of the x86-64 targets this kernel tree builds for. -/
def PAGE_SIZE : Nat := 4096

/-- EXT4_EXT_MIN_WB_PAGES (extend.c line 292): the 4MB minimal chunk
size in pages, 0x400000 / PAGE_SIZE = 1024. -/
def EXT4_EXT_MIN_WB_PAGES : Nat := 0x400000 / PAGE_SIZE

/-- The throttle body of ext4_ext_limit_writeback (extend.c lines
301-323) once the user.wbnice attribute value `s` has been fetched:
size checks against the 256-byte buffer, simple_strtoul parse into the
`long nice` (so huge unsigned parses become negative), clamp at 255,
and the budget rewrite.  The division
`wbc->nr_to_write / roundup_pow_of_two(nice)` converts the signed
nr_to_write to `unsigned long` (usual arithmetic conversions), as does
the addition of the unsigned EXT4_EXT_MIN_WB_PAGES and the round_down
mask; the final store into the `long` field converts back. -/
def ext4_ext_wb_throttle (s : String) (nr_to_write : Int) : Int :=
  let size := s.length
  if size ≤ 0 ∨ 256 ≤ size then nr_to_write
  else
    let nice : Int := toS64 (simple_strtoul s.data 0).1
    if nice ≤ 0 then nr_to_write
    else
      let nice2 : Int := if 255 < nice then 255 else nice
      let pages : Nat := toU64 nr_to_write / roundup_pow_of_two nice2.toNat
      toS64 (round_down ((pages + EXT4_EXT_MIN_WB_PAGES) % 2 ^ 64)
        EXT4_EXT_MIN_WB_PAGES)

/-- ext4_ext_limit_writeback (extend.c lines 277-326), with the
user.wbnice extended attribute of the inode supplied as an optional
string (`none` models ext4_xattr_get failing / attribute absent, the
`size <= 0` branch of the first lookup).  Returns the final
wbc->nr_to_write. -/
def ext4_ext_limit_writeback (sebi : Ext4ExtSbInfo)
    (wbnice_xattr : Option String) (nr_to_write : Int) : Int :=
  if ¬ (sebi.s_opt &&& EXT4_EXT_OPT_WB_NICE ≠ 0 ∧ sebi.s_wb_enable ≠ 0) then
    nr_to_write
  else if nr_to_write = LONG_MAX then nr_to_write
  else
    match wbnice_xattr with
    | none => nr_to_write
    | some s => ext4_ext_wb_throttle s nr_to_write

example : ext4_ext_limit_writeback ⟨5, 0, 1⟩ (some "10") 100000 = 7168 := by
  decide

theorem toU64_eq_toNat {i : Int} (h1 : 0 ≤ i) (h2 : i < 2 ^ 64) :
    toU64 i = i.toNat := by
  unfold toU64
  rw [Int.emod_eq_of_lt h1 h2]

theorem limit_writeback_some (sebi : Ext4ExtSbInfo) (s : String) (nr : Int)
    (hen1 : sebi.s_opt &&& EXT4_EXT_OPT_WB_NICE ≠ 0)
    (hen2 : sebi.s_wb_enable ≠ 0) (hne : nr ≠ LONG_MAX) :
    ext4_ext_limit_writeback sebi (some s) nr = ext4_ext_wb_throttle s nr := by
  unfold ext4_ext_limit_writeback
  rw [if_neg (not_not_intro ⟨hen1, hen2⟩), if_neg hne]

/-- Closed form of the throttle body on the in-range inputs: when the
attribute parses to a nice in 1..255 and the requested budget is
non-negative and small enough that `pages + 1024` cannot overflow, the
result is the requested budget divided by the rounded power of two,
plus one chunk, rounded down to a multiple of the 1024-page chunk. -/
theorem ext4_ext_wb_throttle_eval (s : String) (nr nice : Int)
    (hl1 : 1 ≤ s.length) (hlb : s.length ≤ 255)
    (hp : toS64 (simple_strtoul s.data 0).1 = nice)
    (hn0 : 0 < nice) (hn255 : nice ≤ 255)
    (hnr0 : 0 ≤ nr) (hnrB : nr ≤ 2 ^ 63 - 1 - 1024) :
    ext4_ext_wb_throttle s nr =
      ((nr.toNat / roundup_pow_of_two nice.toNat + 1024) / 1024 * 1024 : Nat) := by
  simp only [ext4_ext_wb_throttle]
  rw [hp]
  rw [if_neg (by omega : ¬ (s.length ≤ 0 ∨ 256 ≤ s.length))]
  rw [if_neg (by omega : ¬ nice ≤ 0)]
  rw [if_neg (by omega : ¬ (255 : Int) < nice)]
  have hmin : EXT4_EXT_MIN_WB_PAGES = 1024 := by
    norm_num [EXT4_EXT_MIN_WB_PAGES, PAGE_SIZE]
  rw [hmin, toU64_eq_toNat hnr0 (by omega)]
  have hp1 : 0 < roundup_pow_of_two nice.toNat := roundup_pow_of_two_pos _
  have hpag : nr.toNat / roundup_pow_of_two nice.toNat ≤ nr.toNat :=
    Nat.div_le_self _ _
  have hnrN : nr.toNat ≤ 2 ^ 63 - 1 - 1024 := by omega
  have hsum : nr.toNat / roundup_pow_of_two nice.toNat + 1024 < 2 ^ 64 := by
    omega
  rw [Nat.mod_eq_of_lt hsum]
  unfold round_down
  have h1024 : (2 ^ 64 - 1024 : Nat) = 2 ^ 64 - 2 ^ 10 := by norm_num
  rw [h1024, land_high_mask (by omega)]
  have hfit :
      (nr.toNat / roundup_pow_of_two nice.toNat + 1024) / 2 ^ 10 * 2 ^ 10 <
        2 ^ 63 := by
    have hle := Nat.div_mul_le_self
      (nr.toNat / roundup_pow_of_two nice.toNat + 1024) (2 ^ 10)
    omega
  rw [toS64_of_lt hfit]
  norm_num

/-- C4 (confirmed): ext4_ext_limit_writeback returns the unbounded
sentinel LONG_MAX unchanged for every configuration and every QoS
hint: either throttling is disabled (first branch) or the explicit
synchronization check returns it untouched before the attribute is
even consulted. -/
theorem claim_C4 (sebi : Ext4ExtSbInfo) (hint : Option String) :
    ext4_ext_limit_writeback sebi hint LONG_MAX = LONG_MAX := by
  unfold ext4_ext_limit_writeback
  by_cases h : ¬ (sebi.s_opt &&& EXT4_EXT_OPT_WB_NICE ≠ 0 ∧ sebi.s_wb_enable ≠ 0)
  · rw [if_pos h]
  · rw [if_neg h, if_pos rfl]

/-- C5 counterexample.  Throttling enabled, requested page count
2^63 - 1024 (non-negative, not the LONG_MAX sentinel), nice hints 1 and
2.  With nice 1 the addition `pages + EXT4_EXT_MIN_WB_PAGES` overflows
`long` (wrapping under -fno-strict-overflow) and the budget comes back
as -2^63, while nice 2 gives 2^62: the budget INCREASES from nice 1 to
nice 2, so it is not monotonically non-increasing in nice. -/
theorem claim_C5_cex :
    ext4_ext_limit_writeback ⟨5, 0, 1⟩ (some "1") (2 ^ 63 - 1024) <
      ext4_ext_limit_writeback ⟨5, 0, 1⟩ (some "2") (2 ^ 63 - 1024) := by
  decide

/-- C5 (amended): for a fixed requested page count that is non-negative
and at most LONG_MAX - EXT4_EXT_MIN_WB_PAGES (so that adding the chunk
cannot overflow), with throttling enabled, the rounded power-of-two
divisor is monotonically non-decreasing in the parsed nice (1..255) and
the adjusted budget monotonically non-increasing. -/
theorem claim_C5_amended (sebi : Ext4ExtSbInfo) (s1 s2 : String)
    (n1 n2 nr : Int)
    (hen1 : sebi.s_opt &&& EXT4_EXT_OPT_WB_NICE ≠ 0)
    (hen2 : sebi.s_wb_enable ≠ 0)
    (hl1 : 1 ≤ s1.length) (hl1b : s1.length ≤ 255)
    (hl2 : 1 ≤ s2.length) (hl2b : s2.length ≤ 255)
    (hp1 : toS64 (simple_strtoul s1.data 0).1 = n1)
    (hp2 : toS64 (simple_strtoul s2.data 0).1 = n2)
    (h1 : 1 ≤ n1) (h12 : n1 ≤ n2) (h2 : n2 ≤ 255)
    (hnr0 : 0 ≤ nr) (hnrB : nr ≤ 2 ^ 63 - 1 - 1024) :
    roundup_pow_of_two n1.toNat ≤ roundup_pow_of_two n2.toNat ∧
    ext4_ext_limit_writeback sebi (some s2) nr ≤
      ext4_ext_limit_writeback sebi (some s1) nr := by
  have hmono : roundup_pow_of_two n1.toNat ≤ roundup_pow_of_two n2.toNat :=
    roundup_pow_of_two_mono (by omega)
  refine ⟨hmono, ?_⟩
  have hne : nr ≠ LONG_MAX := by unfold LONG_MAX; omega
  rw [limit_writeback_some sebi s1 nr hen1 hen2 hne,
    limit_writeback_some sebi s2 nr hen1 hen2 hne,
    ext4_ext_wb_throttle_eval s1 nr n1 hl1 hl1b hp1 (by omega) (by omega)
      hnr0 hnrB,
    ext4_ext_wb_throttle_eval s2 nr n2 hl2 hl2b hp2 (by omega) (by omega)
      hnr0 hnrB]
  have hd : nr.toNat / roundup_pow_of_two n2.toNat ≤
      nr.toNat / roundup_pow_of_two n1.toNat :=
    Nat.div_le_div_left hmono (roundup_pow_of_two_pos _)
  have hfin : (nr.toNat / roundup_pow_of_two n2.toNat + 1024) / 1024 * 1024 ≤
      (nr.toNat / roundup_pow_of_two n1.toNat + 1024) / 1024 * 1024 :=
    Nat.mul_le_mul_right _
      (Nat.div_le_div_right (Nat.add_le_add_right hd 1024))
  exact_mod_cast hfin

/-- C5 witness: the amended theorem at hints "2" and "3" (divisors 2
and 4) and requested budget 100000. -/
theorem claim_C5_witness :
    roundup_pow_of_two (2 : Int).toNat ≤ roundup_pow_of_two (3 : Int).toNat ∧
    ext4_ext_limit_writeback ⟨5, 0, 1⟩ (some "3") 100000 ≤
      ext4_ext_limit_writeback ⟨5, 0, 1⟩ (some "2") 100000 :=
  claim_C5_amended ⟨5, 0, 1⟩ "2" "3" 2 3 100000 (by decide) (by decide)
    (by decide) (by decide) (by decide) (by decide) (by decide) (by decide)
    (by decide) (by decide) (by decide) (by decide) (by decide)

/-- C6 counterexample.  Throttling fully active (both flags, a valid
positive nice hint, a non-negative requested count that is not the
sentinel), yet the returned budget is negative: with nice 1 and
requested 2^63 - 2 the addition `pages + EXT4_EXT_MIN_WB_PAGES`
overflows `long` and the result is -2^63, which is neither non-negative
nor at least one chunk. -/
theorem claim_C6_cex :
    ext4_ext_limit_writeback ⟨5, 0, 1⟩ (some "1") (2 ^ 63 - 2) < 0 := by
  decide


/-- Closed form of the throttle body when the attribute parses to a
nice beyond 255: the clamp makes the divisor roundup_pow_of_two 255. -/
theorem ext4_ext_wb_throttle_eval_clamped (s : String) (nr nice : Int)
    (hl1 : 1 ≤ s.length) (hlb : s.length ≤ 255)
    (hp : toS64 (simple_strtoul s.data 0).1 = nice) (hn255 : 255 < nice)
    (hnr0 : 0 ≤ nr) (hnrB : nr ≤ 2 ^ 63 - 1 - 1024) :
    ext4_ext_wb_throttle s nr =
      ((nr.toNat / roundup_pow_of_two 255 + 1024) / 1024 * 1024 : Nat) := by
  simp only [ext4_ext_wb_throttle]
  rw [hp]
  rw [if_neg (by omega : ¬ (s.length ≤ 0 ∨ 256 ≤ s.length))]
  rw [if_neg (by omega : ¬ nice ≤ 0)]
  rw [if_pos hn255]
  have hmin : EXT4_EXT_MIN_WB_PAGES = 1024 := by
    norm_num [EXT4_EXT_MIN_WB_PAGES, PAGE_SIZE]
  rw [hmin, toU64_eq_toNat hnr0 (by omega),
    (by rfl : ((255 : Int).toNat = 255))]
  have hpag : nr.toNat / roundup_pow_of_two 255 ≤ nr.toNat :=
    Nat.div_le_self _ _
  have hnrN : nr.toNat ≤ 2 ^ 63 - 1 - 1024 := by omega
  have hsum : nr.toNat / roundup_pow_of_two 255 + 1024 < 2 ^ 64 := by omega
  rw [Nat.mod_eq_of_lt hsum]
  unfold round_down
  have h1024 : (2 ^ 64 - 1024 : Nat) = 2 ^ 64 - 2 ^ 10 := by norm_num
  rw [h1024, land_high_mask (by omega)]
  have hfit : (nr.toNat / roundup_pow_of_two 255 + 1024) / 2 ^ 10 * 2 ^ 10 <
      2 ^ 63 := by
    have hle := Nat.div_mul_le_self
      (nr.toNat / roundup_pow_of_two 255 + 1024) (2 ^ 10)
    omega
  rw [toS64_of_lt hfit]
  norm_num

/-- A quotient bumped by one chunk and rounded down to a chunk multiple
is a chunk multiple and at least one chunk. -/
theorem wb_round_props (x : Nat) :
    (x + 1024) / 1024 * 1024 % 1024 = 0 ∧
      1024 ≤ (x + 1024) / 1024 * 1024 := by
  refine ⟨Nat.mul_mod_left _ _, ?_⟩
  have hone : 0 < (x + 1024) / 1024 := Nat.div_pos (by omega) (by omega)
  have := Nat.mul_le_mul_right 1024 hone
  omega

/-- C6 (amended): whenever throttling is active (both enable flags, a
hint that parses to a positive nice, a non-negative requested count)
AND the requested count is at most LONG_MAX - EXT4_EXT_MIN_WB_PAGES
(so the chunk addition cannot overflow), the adjusted count is a
multiple of the 1024-page minimum chunk and at least one chunk. -/
theorem claim_C6_amended (sebi : Ext4ExtSbInfo) (s : String) (nice nr : Int)
    (hen1 : sebi.s_opt &&& EXT4_EXT_OPT_WB_NICE ≠ 0)
    (hen2 : sebi.s_wb_enable ≠ 0)
    (hl1 : 1 ≤ s.length) (hlb : s.length ≤ 255)
    (hp : toS64 (simple_strtoul s.data 0).1 = nice) (hn0 : 0 < nice)
    (hnr0 : 0 ≤ nr) (hnrB : nr ≤ 2 ^ 63 - 1 - 1024) :
    ext4_ext_limit_writeback sebi (some s) nr %
        (EXT4_EXT_MIN_WB_PAGES : Int) = 0 ∧
    (EXT4_EXT_MIN_WB_PAGES : Int) ≤
      ext4_ext_limit_writeback sebi (some s) nr := by
  have hne : nr ≠ LONG_MAX := by unfold LONG_MAX; omega
  have hmin : EXT4_EXT_MIN_WB_PAGES = 1024 := by
    norm_num [EXT4_EXT_MIN_WB_PAGES, PAGE_SIZE]
  rw [limit_writeback_some sebi s nr hen1 hen2 hne, hmin]
  by_cases hclamp : nice ≤ 255
  · rw [ext4_ext_wb_throttle_eval s nr nice hl1 hlb hp hn0 hclamp hnr0 hnrB]
    have hprops := wb_round_props (nr.toNat / roundup_pow_of_two nice.toNat)
    exact ⟨by exact_mod_cast hprops.1, by exact_mod_cast hprops.2⟩
  · rw [ext4_ext_wb_throttle_eval_clamped s nr nice hl1 hlb hp (by omega)
      hnr0 hnrB]
    have hprops := wb_round_props (nr.toNat / roundup_pow_of_two 255)
    exact ⟨by exact_mod_cast hprops.1, by exact_mod_cast hprops.2⟩

/-- C6 witness: hint "3" (divisor 4), requested 99999: the returned
budget is a positive multiple of the 1024-page chunk. -/
theorem claim_C6_witness :
    ext4_ext_limit_writeback ⟨5, 0, 1⟩ (some "3") 99999 %
        (EXT4_EXT_MIN_WB_PAGES : Int) = 0 ∧
    (EXT4_EXT_MIN_WB_PAGES : Int) ≤
      ext4_ext_limit_writeback ⟨5, 0, 1⟩ (some "3") 99999 :=
  claim_C6_amended ⟨5, 0, 1⟩ "3" 3 99999 (by decide) (by decide) (by decide)
    (by decide) (by decide) (by decide) (by decide) (by decide)

/-- C7 (confirmed): with both throttle flags set and a non-sentinel
requested page count, ext4_ext_limit_writeback never fails: an absent
attribute, an attribute of 256 bytes or more, and an attribute whose
simple_strtoul parse lands in the `long nice` as zero or negative
(unparseable text parses to 0; unsigned values of 2^63 or more wrap
negative) all return the requested count unchanged, while a parsed
nice above 255 is clamped to 255 (divisor roundup_pow_of_two 255)
rather than rejected. -/
theorem claim_C7 (sebi : Ext4ExtSbInfo) (nr : Int)
    (hen1 : sebi.s_opt &&& EXT4_EXT_OPT_WB_NICE ≠ 0)
    (hen2 : sebi.s_wb_enable ≠ 0)
    (hnr : nr ≠ LONG_MAX) :
    ext4_ext_limit_writeback sebi none nr = nr ∧
    (∀ s : String, 256 ≤ s.length →
      ext4_ext_limit_writeback sebi (some s) nr = nr) ∧
    (∀ s : String, toS64 (simple_strtoul s.data 0).1 ≤ 0 →
      ext4_ext_limit_writeback sebi (some s) nr = nr) ∧
    (∀ s : String, 1 ≤ s.length → s.length ≤ 255 →
      255 < toS64 (simple_strtoul s.data 0).1 →
      ext4_ext_limit_writeback sebi (some s) nr =
        toS64 (round_down ((toU64 nr /
          roundup_pow_of_two (255 : Int).toNat + EXT4_EXT_MIN_WB_PAGES) %
          2 ^ 64) EXT4_EXT_MIN_WB_PAGES)) := by
  refine ⟨?_, ?_, ?_, ?_⟩
  · unfold ext4_ext_limit_writeback
    rw [if_neg (not_not_intro ⟨hen1, hen2⟩), if_neg hnr]
  · intro s h
    rw [limit_writeback_some sebi s nr hen1 hen2 hnr]
    simp only [ext4_ext_wb_throttle]
    rw [if_pos (Or.inr h)]
  · intro s h
    rw [limit_writeback_some sebi s nr hen1 hen2 hnr]
    simp only [ext4_ext_wb_throttle]
    by_cases hsz : s.length ≤ 0 ∨ 256 ≤ s.length
    · rw [if_pos hsz]
    · rw [if_neg hsz, if_pos h]
  · intro s h1 h2 h3
    rw [limit_writeback_some sebi s nr hen1 hen2 hnr]
    simp only [ext4_ext_wb_throttle]
    rw [if_neg (by omega : ¬ (s.length ≤ 0 ∨ 256 ≤ s.length)),
      if_neg (by omega : ¬ toS64 (simple_strtoul s.data 0).1 ≤ 0),
      if_pos h3]

set_option maxRecDepth 4096 in
/-- C7 witness: the theorem applied with both flags set and requested
count 1024 (the spec scenario): absent attribute, a 256-byte
attribute, the unparseable "abc" (parses to 0), and "999" (clamped to
255). -/
theorem claim_C7_witness :
    ext4_ext_limit_writeback ⟨5, 0, 1⟩ none 1024 = 1024 ∧
    ext4_ext_limit_writeback ⟨5, 0, 1⟩
      (some (String.mk (List.replicate 256 'a'))) 1024 = 1024 ∧
    ext4_ext_limit_writeback ⟨5, 0, 1⟩ (some "abc") 1024 = 1024 ∧
    ext4_ext_limit_writeback ⟨5, 0, 1⟩ (some "999") 1024 =
      toS64 (round_down ((toU64 1024 /
        roundup_pow_of_two (255 : Int).toNat + EXT4_EXT_MIN_WB_PAGES) %
        2 ^ 64) EXT4_EXT_MIN_WB_PAGES) := by
  have h := claim_C7 ⟨5, 0, 1⟩ 1024 (by decide) (by decide) (by decide)
  exact ⟨h.1, h.2.1 _ (by decide), h.2.2.1 _ (by decide),
    h.2.2.2 _ (by decide) (by decide) (by decide)⟩

/-- strsep on ';' (the option loop of ext4_handle_ext_mount_opt):
split the option string at every separator, keeping empty segments
(the loop skips them with `if (!*p) continue`). -/
def splitSemi : List Char → List (List Char)
  | [] => [[]]
  | c :: rest =>
    if c = ';' then [] :: splitSemi rest
    else
      match splitSemi rest with
      | t :: ts => (c :: t) :: ts
      | [] => [[c]]

/-- Result of match_token against the two-entry ext_tokens table. -/
inductive ExtToken where
  | dut (v : List Char)
  | wbnice
  | unknown
deriving DecidableEq, Repr

/-- match_token (lib/parser.c, not under src/) against ext_tokens:
`delayupdatetime=%d` matches when the token carries the literal prefix
and the %d conversion (simple_strtol, base 0) consumes at least one
character and reaches the end of the token; `wbnice` matches
literally; anything else is unmatched (Opt_ext_err). -/
def ext_match_token (tok : List Char) : ExtToken :=
  if tok.take 16 = "delayupdatetime=".data ∧
      0 < simple_strtol_consumed (tok.drop 16) ∧
      simple_strtol_consumed (tok.drop 16) = (tok.drop 16).length then
    ExtToken.dut (tok.drop 16)
  else if tok = "wbnice".data then ExtToken.wbnice
  else ExtToken.unknown

/-- The token loop of ext4_handle_ext_mount_opt (extend.c lines
55-89).  `ret` is the accumulated return value: a delayupdatetime
value that fails match_u64 sets ret to -EINVAL and continues, an
unknown token sets ret to -EINVAL and aborts (goto out).  When the
%d pattern matched, args->from is non-NULL, so the
`if (!args->from) break` default-value branch is not taken.  The u64
value is truncated into the u32 s_delay_update_time field on
assignment. -/
def ext4_ext_parse_tokens (sebi : Ext4ExtSbInfo) (ret : Int) :
    List (List Char) → Ext4ExtSbInfo × Int
  | [] => (sebi, ret)
  | tok :: rest =>
    if tok = [] then ext4_ext_parse_tokens sebi ret rest
    else
      match ext_match_token tok with
      | ExtToken.dut v =>
        let sebi1 : Ext4ExtSbInfo :=
          { sebi with
            s_opt := sebi.s_opt ||| EXT4_EXT_OPT_DELAY_UPDATE_TIME,
            s_delay_update_time := EXT4_EXT_DEFAULT_DELAY_UPDATE_TIME }
        match match_u64 v with
        | Except.error _ => ext4_ext_parse_tokens sebi1 (-22) rest
        | Except.ok val =>
          ext4_ext_parse_tokens
            { sebi1 with s_delay_update_time := val % 2 ^ 32 } ret rest
      | ExtToken.wbnice =>
        ext4_ext_parse_tokens
          { sebi with
            s_opt := sebi.s_opt ||| EXT4_EXT_OPT_WB_NICE,
            s_wb_enable := 1 } ret rest
      | ExtToken.unknown => (sebi, -22)

/-- ext4_handle_ext_mount_opt (extend.c lines 30-94): set the VALID
bit, then parse the ';'-separated option string (mutex initialization
on non-remount and the out-of-memory path of match_strdup carry no
policy state and are omitted).  Returns the final state and return
value (0 or -EINVAL = -22). -/
def ext4_handle_ext_mount_opt (sebi : Ext4ExtSbInfo) (param : String)
    (is_remount : Bool) : Ext4ExtSbInfo × Int :=
  ext4_ext_parse_tokens
    { sebi with s_opt := sebi.s_opt ||| EXT4_EXT_OPT_VALID } 0
    (splitSemi param.data)

/-- A token that does not hit the aborting default case: empty, or
matching one of the two table entries. -/
def ext_token_ok (tok : List Char) : Bool :=
  decide (tok = []) ||
    (match ext_match_token tok with
     | ExtToken.unknown => false
     | _ => true)

theorem parse_cons_empty (sebi : Ext4ExtSbInfo) (ret : Int)
    (rest : List (List Char)) :
    ext4_ext_parse_tokens sebi ret ([] :: rest) =
      ext4_ext_parse_tokens sebi ret rest := by
  simp only [ext4_ext_parse_tokens]
  simp

theorem parse_cons_dut_error (sebi : Ext4ExtSbInfo) (ret e : Int)
    (tok v : List Char) (rest : List (List Char)) (hne : tok ≠ [])
    (hm : ext_match_token tok = ExtToken.dut v)
    (herr : match_u64 v = Except.error e) :
    ext4_ext_parse_tokens sebi ret (tok :: rest) =
      ext4_ext_parse_tokens
        { sebi with
          s_opt := sebi.s_opt ||| EXT4_EXT_OPT_DELAY_UPDATE_TIME,
          s_delay_update_time := EXT4_EXT_DEFAULT_DELAY_UPDATE_TIME }
        (-22) rest := by
  simp only [ext4_ext_parse_tokens, hm, herr, if_neg hne]

theorem parse_cons_dut_ok (sebi : Ext4ExtSbInfo) (ret : Int) (val : Nat)
    (tok v : List Char) (rest : List (List Char)) (hne : tok ≠ [])
    (hm : ext_match_token tok = ExtToken.dut v)
    (hok : match_u64 v = Except.ok val) :
    ext4_ext_parse_tokens sebi ret (tok :: rest) =
      ext4_ext_parse_tokens
        { sebi with
          s_opt := sebi.s_opt ||| EXT4_EXT_OPT_DELAY_UPDATE_TIME,
          s_delay_update_time := val % 2 ^ 32 } ret rest := by
  simp only [ext4_ext_parse_tokens, hm, hok, if_neg hne]

theorem parse_cons_wbnice (sebi : Ext4ExtSbInfo) (ret : Int)
    (tok : List Char) (rest : List (List Char)) (hne : tok ≠ [])
    (hm : ext_match_token tok = ExtToken.wbnice) :
    ext4_ext_parse_tokens sebi ret (tok :: rest) =
      ext4_ext_parse_tokens
        { sebi with
          s_opt := sebi.s_opt ||| EXT4_EXT_OPT_WB_NICE,
          s_wb_enable := 1 } ret rest := by
  simp only [ext4_ext_parse_tokens, hm, if_neg hne]

theorem parse_tokens_unknown_head (sebi : Ext4ExtSbInfo) (ret : Int)
    (bad : List Char) (post : List (List Char)) (h1 : bad ≠ [])
    (h2 : ext_match_token bad = ExtToken.unknown) :
    ext4_ext_parse_tokens sebi ret (bad :: post) = (sebi, -22) := by
  simp only [ext4_ext_parse_tokens, h2, if_neg h1]

theorem parse_tokens_append (sebi : Ext4ExtSbInfo) (ret : Int)
    (l1 l2 : List (List Char)) (h : ∀ t ∈ l1, ext_token_ok t = true) :
    ext4_ext_parse_tokens sebi ret (l1 ++ l2) =
      ext4_ext_parse_tokens (ext4_ext_parse_tokens sebi ret l1).1
        (ext4_ext_parse_tokens sebi ret l1).2 l2 := by
  induction l1 generalizing sebi ret with
  | nil => rfl
  | cons tok l1 ih =>
    have htok := h tok (List.mem_cons_self _ _)
    have hrest : ∀ t ∈ l1, ext_token_ok t = true :=
      fun t ht => h t (List.mem_cons_of_mem _ ht)
    rw [List.cons_append]
    by_cases hemp : tok = []
    · subst hemp
      rw [parse_cons_empty, parse_cons_empty]
      exact ih sebi ret hrest
    · cases hm : ext_match_token tok with
      | dut v =>
        cases herr : match_u64 v with
        | error e =>
          rw [parse_cons_dut_error sebi ret e tok v _ hemp hm herr,
            parse_cons_dut_error sebi ret e tok v _ hemp hm herr]
          exact ih _ _ hrest
        | ok val =>
          rw [parse_cons_dut_ok sebi ret val tok v _ hemp hm herr,
            parse_cons_dut_ok sebi ret val tok v _ hemp hm herr]
          exact ih _ _ hrest
      | wbnice =>
        rw [parse_cons_wbnice sebi ret tok _ hemp hm,
          parse_cons_wbnice sebi ret tok _ hemp hm]
        exact ih _ _ hrest
      | unknown =>
        simp [ext_token_ok, hemp, hm] at htok

theorem parse_tokens_ret_neg (sebi : Ext4ExtSbInfo)
    (l : List (List Char)) :
    (ext4_ext_parse_tokens sebi (-22) l).2 = -22 := by
  induction l generalizing sebi with
  | nil => rfl
  | cons tok l ih =>
    by_cases hemp : tok = []
    · subst hemp
      rw [parse_cons_empty]
      exact ih sebi
    · cases hm : ext_match_token tok with
      | dut v =>
        cases herr : match_u64 v with
        | error e =>
          rw [parse_cons_dut_error sebi (-22) e tok v _ hemp hm herr]
          exact ih _
        | ok val =>
          rw [parse_cons_dut_ok sebi (-22) val tok v _ hemp hm herr]
          exact ih _
      | wbnice =>
        rw [parse_cons_wbnice sebi (-22) tok _ hemp hm]
        exact ih _
      | unknown =>
        rw [parse_tokens_unknown_head sebi (-22) tok _ hemp hm]

/-- C8 (confirmed): for every option string whose token list contains
an unknown token (one matching neither `delayupdatetime=%d` nor
`wbnice`), preceded only by non-aborting tokens, the parse returns
-EINVAL and stops at that token: the final state is exactly the state
after folding the earlier tokens (their configuration mutations are
kept, not rolled back), and the tokens after the unknown one are never
applied. -/
theorem claim_C8 (sebi : Ext4ExtSbInfo) (param : String) (r : Bool)
    (pre post : List (List Char)) (bad : List Char)
    (hsplit : splitSemi param.data = pre ++ bad :: post)
    (hpre : ∀ t ∈ pre, ext_token_ok t = true)
    (hbad1 : bad ≠ [])
    (hbad2 : ext_match_token bad = ExtToken.unknown) :
    ext4_handle_ext_mount_opt sebi param r =
      ((ext4_ext_parse_tokens
          { sebi with s_opt := sebi.s_opt ||| EXT4_EXT_OPT_VALID } 0 pre).1,
        -22) := by
  unfold ext4_handle_ext_mount_opt
  rw [hsplit, parse_tokens_append _ 0 pre (bad :: post) hpre,
    parse_tokens_unknown_head _ _ bad post hbad1 hbad2]

/-- C8 witness: option string "delayupdatetime=7;foo;wbnice" from the
zero state: the delay token before the unknown "foo" is applied
(VALID and coalescing bits set, delay 7), "wbnice" after it is not,
and the call returns -EINVAL. -/
theorem claim_C8_witness :
    ext4_handle_ext_mount_opt ⟨0, 0, 0⟩ "delayupdatetime=7;foo;wbnice"
      false = (⟨3, 7, 0⟩, -22) := by
  have h := claim_C8 ⟨0, 0, 0⟩ "delayupdatetime=7;foo;wbnice" false
    ["delayupdatetime=7".data] ["wbnice".data] "foo".data
    (by decide) (by decide) (by decide) (by decide)
  rw [h]
  decide

/-- C10 counterexample.  The option string
"delayupdatetime=abc;wbnice" from the zero state: "abc" does not
satisfy the %d conversion of the `delayupdatetime=%d` pattern, so the
whole token is treated as UNKNOWN and aborts immediately with -EINVAL.
The final state has only the VALID bit: the coalescing flag is NOT
set, no default delay is installed, and the following "wbnice" token
is NOT applied - contradicting the claim that a delayupdatetime token
with an unparseable value leaves the coalescing flag set, continues
with later tokens, and merely returns InvalidValue at the end. -/
theorem claim_C10_cex :
    ext4_handle_ext_mount_opt ⟨0, 0, 0⟩ "delayupdatetime=abc;wbnice"
      false = (⟨1, 0, 0⟩, -22) := by
  decide

/-- C10 (amended): when a delayupdatetime token carries a value that
the %d pattern accepts (simple_strtol consumes all of it, e.g. a
negative number) but that fails the strict unsigned 64-bit parse of
match_u64 (e.g. "-1", or a value of 2^64 or more), the parse does not
abort: the coalescing flag is set with the delay at the built-in
default, the remaining tokens are parsed and applied, and the call
returns -EINVAL at the end.  A value that does not even lex as an
integer (e.g. "abc") instead makes the whole token unknown, which
aborts immediately. -/
theorem claim_C10_amended (sebi : Ext4ExtSbInfo) (param : String)
    (r : Bool) (v : List Char) (rest : List (List Char)) (e : Int)
    (hsplit : splitSemi param.data =
      ("delayupdatetime=".data ++ v) :: rest)
    (hmatch : ext_match_token ("delayupdatetime=".data ++ v) =
      ExtToken.dut v)
    (herr : match_u64 v = Except.error e)
    (hrest : ∀ t ∈ rest, ext_token_ok t = true) :
    ext4_handle_ext_mount_opt sebi param r =
      ((ext4_ext_parse_tokens
          { sebi with
            s_opt := (sebi.s_opt ||| EXT4_EXT_OPT_VALID) |||
              EXT4_EXT_OPT_DELAY_UPDATE_TIME,
            s_delay_update_time := EXT4_EXT_DEFAULT_DELAY_UPDATE_TIME }
          (-22) rest).1,
        -22) := by
  unfold ext4_handle_ext_mount_opt
  rw [hsplit]
  rw [parse_cons_dut_error _ 0 e _ v rest (by simp) hmatch herr]
  have h2 := parse_tokens_ret_neg
    { sebi with
      s_opt := (sebi.s_opt ||| EXT4_EXT_OPT_VALID) |||
        EXT4_EXT_OPT_DELAY_UPDATE_TIME,
      s_delay_update_time := EXT4_EXT_DEFAULT_DELAY_UPDATE_TIME } rest
  exact Prod.ext rfl h2

/-- C10 witness: "delayupdatetime=-1;wbnice" from the zero state: the
%d pattern matches "-1" but match_u64 rejects it, so the parse
continues; the final state has VALID, coalescing and wbnice bits
(7), the built-in default delay, wb_enable 1, and ret -EINVAL. -/
theorem claim_C10_witness :
    ext4_handle_ext_mount_opt ⟨0, 0, 0⟩ "delayupdatetime=-1;wbnice"
      false = (⟨7, EXT4_EXT_DEFAULT_DELAY_UPDATE_TIME, 1⟩, -22) := by
  have h := claim_C10_amended ⟨0, 0, 0⟩ "delayupdatetime=-1;wbnice" false
    "-1".data ["wbnice".data] (-22) (by decide) (by decide) (by rfl)
    (by decide)
  rw [h]
  decide

/-- The two entries of the ext4_ext_attrs table (extend.c lines
119-133): delay_update_time backed by s_delay_update_time and
wb_enable backed by s_wb_enable, both read-write. -/
inductive ExtAttrField where
  | delay_update_time
  | wb_enable
deriving DecidableEq, Repr

/-- Modelled from the spec: the descriptor byte lengths are
`offsetofend - offsetof` of fields of struct ext4_ext_sb_info, whose
declaration (ext4.h) is not under src/; the spec data model gives
`delayUpdateTimeMs: u32` (4 bytes) and `writebackEnabled: bool`
(1 byte). -/
def ext4_ext_attr_len : ExtAttrField → Nat
  | ExtAttrField.delay_update_time => 4
  | ExtAttrField.wb_enable => 1

/-- sysfs mode of each table entry: both use EXT4_EXT_ATTR_RW
(0644). -/
def ext4_ext_attr_mode : ExtAttrField → Nat
  | ExtAttrField.delay_update_time => 0o644
  | ExtAttrField.wb_enable => 0o644

/-- The requiredFlags (.opts) of each descriptor. -/
def ext4_ext_attr_opts : ExtAttrField → Nat
  | ExtAttrField.delay_update_time => EXT4_EXT_OPT_DELAY_UPDATE_TIME
  | ExtAttrField.wb_enable => EXT4_EXT_OPT_WB_NICE

/-- The bytes at the descriptor's offset, as a value: the memcpy
source/target of show/store. -/
def readField (sebi : Ext4ExtSbInfo) : ExtAttrField → Nat
  | ExtAttrField.delay_update_time => sebi.s_delay_update_time
  | ExtAttrField.wb_enable => sebi.s_wb_enable

/-- Store a value of the field's width at the descriptor's offset:
the memcpy of ext4_ext_attr_store keeps the low ea->len bytes on the
little-endian targets this code runs on. -/
def writeField (sebi : Ext4ExtSbInfo) (f : ExtAttrField) (val : Nat) :
    Ext4ExtSbInfo :=
  match f with
  | ExtAttrField.delay_update_time =>
    { sebi with s_delay_update_time :=
        val % 2 ^ (8 * ext4_ext_attr_len ExtAttrField.delay_update_time) }
  | ExtAttrField.wb_enable =>
    { sebi with s_wb_enable :=
        val % 2 ^ (8 * ext4_ext_attr_len ExtAttrField.wb_enable) }

/-- ext4_ext_attr_show (extend.c lines 135-152): memcpy ea->len bytes
of the field into the zero-initialized `unsigned long val` (zero
extension on little-endian) and print it with %lu; modelled as the
accumulator value. -/
def ext4_ext_attr_show (sebi : Ext4ExtSbInfo) (f : ExtAttrField) : Nat :=
  readField sebi f % 2 ^ (8 * ext4_ext_attr_len f)

/-- kstrtoul (lib/kstrtox.c, not under src/): on a 64-bit long this is
kstrtoull. -/
def kstrtoul (cs : List Char) (base : Nat) : Except Int Nat :=
  kstrtoull cs base

/-- ext4_ext_attr_store (extend.c lines 154-177):
kstrtoul(skip_spaces(buf), 0, &val), error returned as is; on success
memcpy the low ea->len bytes of val into the field and return the
buffer length. -/
def ext4_ext_attr_store (sebi : Ext4ExtSbInfo) (f : ExtAttrField)
    (buf : String) : Ext4ExtSbInfo × Int :=
  match kstrtoul (skip_spaces buf.data) 0 with
  | Except.error e => (sebi, e)
  | Except.ok val => (writeField sebi f val, buf.length)

/-- C9 (confirmed): registry round-trip.  For every read-write
descriptor and every value X representable in the descriptor's
byteLength bytes, storing text that parses to X and then reading the
attribute yields X back: the store keeps the low byteLength bytes of
X, and the show zero-extends those bytes into the returned integer. -/
theorem claim_C9 (sebi : Ext4ExtSbInfo) (f : ExtAttrField) (buf : String)
    (x : Nat) (hrw : ext4_ext_attr_mode f = 0o644)
    (hparse : kstrtoul (skip_spaces buf.data) 0 = Except.ok x)
    (hx : x < 2 ^ (8 * ext4_ext_attr_len f)) :
    ext4_ext_attr_show (ext4_ext_attr_store sebi f buf).1 f = x := by
  unfold ext4_ext_attr_store
  rw [hparse]
  cases f <;>
    simp only [ext4_ext_attr_show, readField, writeField,
      ext4_ext_attr_len] at hx ⊢ <;>
    omega

/-- C9 witness: writing "123" to delay_update_time and reading it back
yields 123; 123 is representable in the 4-byte field. -/
theorem claim_C9_witness :
    ext4_ext_attr_show
      (ext4_ext_attr_store ⟨3, 500, 0⟩ ExtAttrField.delay_update_time
        "123").1 ExtAttrField.delay_update_time = 123 :=
  claim_C9 ⟨3, 500, 0⟩ ExtAttrField.delay_update_time "123" 123
    (by decide) (by rfl) (by decide)
